import Mathlib

/-!
Verification of the Imdb-metadata-handling pipeline.

Shallow embedding of the two source files:
  src/index.js          (newer variant: namespace IndexJs)
  src/unnamed/part_000  (older variant: namespace Part000)

The embedded JS fragments are side-effect free apart from logging and the
database/network calls, which are modelled explicitly.  JS values reachable
in this pipeline are the results of JSON.parse plus undefined, modelled by
`Json` and `Option Json` (with `none` standing for both `undefined` and,
after a lookup, for `null`: the two behave identically under every operation
the source performs on them - optional chaining, truthiness tests and the
TypeError raised by a plain member access).
-/

/-- JSON values as produced by JSON.parse.  Numbers in this pipeline (years,
episode totals) are integers, modelled as `Int`. -/
inductive Json where
  | null : Json
  | bool : Bool → Json
  | num : Int → Json
  | str : String → Json
  | arr : List Json → Json
  | obj : List (String × Json) → Json

/-- JS truthiness of a value (null, false, 0 and "" are falsy; arrays and
objects are always truthy). -/
def truthy : Json → Bool
  | Json.null => false
  | Json.bool b => b
  | Json.num n => n != 0
  | Json.str s => s != ""
  | Json.arr _ => true
  | Json.obj _ => true

/-- JS `a || d` where `a` may be undefined: the left value when truthy,
otherwise the default. -/
def jsOr (v : Option Json) (d : Json) : Json :=
  match v with
  | some j => if truthy j then j else d
  | none => d

/-- First binding of a key in an object literal (objects produced by
JSON.parse have unique keys). -/
def lookupField : List (String × Json) → String → Option Json
  | [], _ => none
  | p :: rest, key => if p.1 = key then some p.2 else lookupField rest key

/-- Collapse a JSON `null` result into `none`: a looked-up `null` and
`undefined` behave identically in every operation this pipeline performs. -/
def denull : Option Json → Option Json
  | some Json.null => none
  | v => v

/-- JS optional member access `v?.key`: `undefined` on a nullish base or a
non-object base, the bound value otherwise. -/
def jsGet (v : Option Json) (key : String) : Option Json :=
  match v with
  | some (Json.obj fs) => denull (lookupField fs key)
  | _ => none

/-- JS optional indexed access `v?.[i]` (array element, object property with
a numeric name, or character of a string). -/
def jsIndex (v : Option Json) (i : Nat) : Option Json :=
  match v with
  | some (Json.arr xs) => denull xs[i]?
  | some (Json.obj fs) => denull (lookupField fs (toString i))
  | some (Json.str s) => (s.data[i]?).map fun c => Json.str (String.mk [c])
  | _ => none

mutual

/-- JS String() conversion as used by `.toString()` and template literals
on the values this pipeline reads (numbers, strings, booleans; arrays join
their elements with commas, objects print as "[object Object]"). -/
def Json.toStr : Json → String
  | Json.null => "null"
  | Json.bool true => "true"
  | Json.bool false => "false"
  | Json.num n => toString n
  | Json.str s => s
  | Json.arr xs => String.intercalate "," (Json.toStrList xs)
  | Json.obj _ => "[object Object]"

/-- Element conversions of Array.prototype.join: a `null` element becomes
the empty string. -/
def Json.toStrList : List Json → List String
  | [] => []
  | Json.null :: xs => "" :: Json.toStrList xs
  | x :: xs => Json.toStr x :: Json.toStrList xs

end

/-- JS `p?.key.toString()` where the final member access is NOT optional:
if `p` is nullish the whole chain short-circuits to undefined, but if `p`
exists and `key` is absent (or null) the plain `.toString()` access raises
a TypeError. -/
def fieldToStringUnsafe (p : Option Json) (key : String) :
    Except String (Option String) :=
  match p with
  | none => Except.ok none
  | some o =>
      match jsGet (some o) key with
      | none => Except.error "TypeError: cannot read toString of undefined"
      | some v => Except.ok (some (Json.toStr v))

/-- JS iteration of a spread element `[...v]`: arrays yield their elements,
strings their characters, anything else raises a TypeError. -/
def jsIterate : Json → Except String (List Json)
  | Json.arr xs => Except.ok xs
  | Json.str s => Except.ok (s.data.map fun c => Json.str (String.mk [c]))
  | _ => Except.error "TypeError: value is not iterable"

/-- JS Array.prototype.flatMap: map then flatten exactly one array level
(a non-array result of `f` is kept as a single element). -/
def flatMapJs (f : Json → Json) : List Json → List Json
  | [] => []
  | x :: xs =>
      (match f x with
       | Json.arr ys => ys
       | y => [y]) ++ flatMapJs f xs

/-- Diagnostics logged by the normalizer (console.error / console.warn). -/
inductive Diag where
  | errNoNextData
  | errParseFailed
  | warnNoFilmography
deriving DecidableEq

/-- Outcome of the external document layer for `extractFilmographyFromHtml`:
cheerio's selection of the single `__NEXT_DATA__` script element and
JSON.parse of its content are external collaborators (spec section 1 puts
HTML/DOM parsing internals out of scope), modelled by their three possible
outcomes on a fetched page body. -/
inductive Doc where
  | noBlock : Doc
  | invalidBlock : Doc
  | payload : Json → Doc

namespace IndexJs

/-- One normalized credit row of src/index.js (the object pushed at line
149).  Fields computed by `||` keep the raw JS value, so they are `Json`;
fields that are always strings (or string-or-null) after `.toString()` or a
template literal are `String` (or `Option String`). -/
structure Credit where
  title : Json
  titleUrl : String
  fromYear : String
  toYear : Option String
  noOfEpisodes : Json
  type : Json
  role : Json
  currentProductionStage : Json

/-- The chain `imdbJson?.props?.pageProps?.mainColumnData`. -/
def mainColumnData (j : Json) : Option Json :=
  jsGet (jsGet (jsGet (some j) "props") "pageProps") "mainColumnData"

/-- The flatMap body at line 129: `credit?.credits?.edges || []`. -/
def creditEdges (credit : Json) : Json :=
  jsOr (jsGet (jsGet (some credit) "credits") "edges") (Json.arr [])

/-- Second arm of line 142: `node?.title?.releaseYear?.year.toString() || ''`
(the `.toString()` access is not optional). -/
def fromYearSnd (node : Option Json) : Except String String :=
  match fieldToStringUnsafe (jsGet (jsGet node "title") "releaseYear") "year" with
  | Except.error e => Except.error e
  | Except.ok (some s) => Except.ok s
  | Except.ok none => Except.ok ""

/-- Line 142: `node?.episodeCredits?.yearRange?.year.toString() || <snd>`;
the second arm is only evaluated when the first is falsy. -/
def fromYearOf (node : Option Json) : Except String String :=
  match fieldToStringUnsafe (jsGet (jsGet node "episodeCredits") "yearRange") "year" with
  | Except.error e => Except.error e
  | Except.ok (some s) => if s = "" then fromYearSnd node else Except.ok s
  | Except.ok none => fromYearSnd node

/-- Line 143: `node?.episodeCredits?.yearRange?.endYear?.toString() || null`
(a fully optional chain; a falsy result becomes null). -/
def toYearOf (node : Option Json) : Option String :=
  match jsGet (jsGet (jsGet node "episodeCredits") "yearRange") "endYear" with
  | some v => if Json.toStr v = "" then none else some (Json.toStr v)
  | none => none

/-- The loop body at lines 136-149 of src/index.js for a single edge; the
only member access that can raise is inside `fromYearOf`. -/
def normalizeEdge (edge : Json) : Except String Credit :=
  let node := jsGet (some edge) "node"
  let titleObj := jsGet node "title"
  match fromYearOf node with
  | Except.error e => Except.error e
  | Except.ok fy =>
      Except.ok
        { title := jsOr (jsGet (jsGet titleObj "titleText") "text") (Json.str "")
          titleUrl :=
            match jsGet titleObj "id" with
            | some v =>
                if truthy v then
                  "https://www.imdb.com/title/" ++ Json.toStr v ++ "/"
                else ""
            | none => ""
          fromYear := fy
          toYear := toYearOf node
          noOfEpisodes := jsOr (jsGet (jsGet node "episodeCredits") "total") (Json.num 0)
          type := jsOr (jsGet (jsGet titleObj "titleType") "text") (Json.str "")
          role := jsOr (jsGet (jsIndex (jsGet node "characters") 0) "name")
                    (jsOr (jsGet (jsGet node "category") "text") (Json.str ""))
          currentProductionStage :=
            jsOr (jsGet (jsGet (jsGet titleObj "productionStatus")
                    "currentProductionStage") "text") (Json.str "") }

/-- The `for (const edge of edges)` loop at line 136: a raised TypeError
aborts the whole call, discarding credits already pushed. -/
def normalizeEdges : List Json → Except String (List Credit)
  | [] => Except.ok []
  | e :: es =>
      match normalizeEdge e with
      | Except.error msg => Except.error msg
      | Except.ok c =>
          match normalizeEdges es with
          | Except.error msg => Except.error msg
          | Except.ok cs => Except.ok (c :: cs)

/-- `extractFilmographyFromHtml` of src/index.js (lines 109-152).  The two
container lookups default to `[]` when falsy (lines 125-126); the spread
`[...released, ...unreleased]` iterates both (line 128) and `flatMap`
collects `credit?.credits?.edges || []` (lines 128-130).  The guard at line
132 can never fire (the flatMap result is always an array), so no
`warnNoFilmography` diagnostic is reachable in this variant. -/
def extractFilmographyFromHtml (doc : Doc) :
    Except String (List Diag × List Credit) :=
  match doc with
  | Doc.noBlock => Except.ok ([Diag.errNoNextData], [])
  | Doc.invalidBlock => Except.ok ([Diag.errParseFailed], [])
  | Doc.payload j =>
      match jsIterate (jsOr (jsGet (mainColumnData j) "releasedPrimaryCredits")
                        (Json.arr [])) with
      | Except.error e => Except.error e
      | Except.ok rel =>
          match jsIterate (jsOr (jsGet (mainColumnData j) "unreleasedPrimaryCredits")
                            (Json.arr [])) with
          | Except.error e => Except.error e
          | Except.ok unrel =>
              match normalizeEdges (flatMapJs creditEdges (rel ++ unrel)) with
              | Except.error e => Except.error e
              | Except.ok credits => Except.ok ([], credits)

end IndexJs

/-- Strip a literal needle from the front of a character list: `some rest`
when the list is needle ++ rest. -/
def dropNeedle : List Char → List Char → Option (List Char)
  | [], cs => some cs
  | _ :: _, [] => none
  | n :: ns, c :: cs => if c = n then dropNeedle ns cs else none

/-- The literal part of the regex at line 105: the characters of "/name/nm". -/
def nmNeedle : List Char := ['/', 'n', 'a', 'm', 'e', '/', 'n', 'm']

/-- A match attempt of /\/name\/(nm\d+)\/?/ anchored at the head of the
list: the literal "/name/nm", then at least one digit; the captured token is
"nm" followed by the maximal digit run (the optional trailing slash
constrains nothing). -/
def nmTokenAt (cs : List Char) : Option (List Char) :=
  match dropNeedle nmNeedle cs with
  | none => none
  | some rest =>
      match rest with
      | [] => none
      | d :: _ =>
          if d.isDigit then some ('n' :: 'm' :: rest.takeWhile Char.isDigit)
          else none

/-- Leftmost-first regex search: try a match at each position left to
right, as String.prototype.match does. -/
def findNmMatch : List Char → Option (List Char)
  | [] => none
  | c :: rest =>
      match nmTokenAt (c :: rest) with
      | some tok => some tok
      | none => findNmMatch rest

/-- `extractImdbId` (src/index.js lines 102-107, identical in
src/unnamed/part_000 lines 100-105): a nullish or empty url is rejected by
the falsy guard, otherwise the first match of /\/name\/(nm\d+)\/?/ is
returned, else null. -/
def extractImdbId (url : Option String) : Option String :=
  match url with
  | none => none
  | some s => if s = "" then none else (findNmMatch s.data).map fun cs => String.mk cs

namespace Part000

/-- One normalized credit row of src/unnamed/part_000 (the object pushed at
line 138). -/
structure Credit where
  title : Json
  titleUrl : String
  year : String
  type : Json
  role : Json

/-- The chain at lines 122-124:
`imdbJson?.props?.pageProps?.mainColumnData?.releasedPrimaryCredits?.[0]?.credits?.edges`
- the only part of the decoded payload this variant ever reads. -/
def edgesChain (j : Json) : Option Json :=
  jsGet (jsGet (jsIndex (jsGet (jsGet (jsGet (jsGet (some j) "props")
    "pageProps") "mainColumnData") "releasedPrimaryCredits") 0) "credits") "edges"

/-- The loop body at lines 129-138 of src/unnamed/part_000: every chain is
fully optional (`?.year?.toString()` at line 135), so no edge can raise. -/
def normalizeEdge (edge : Json) : Credit :=
  let node := jsGet (some edge) "node"
  let titleObj := jsGet node "title"
  { title := jsOr (jsGet (jsGet titleObj "titleText") "text") (Json.str "")
    titleUrl :=
      match jsGet titleObj "id" with
      | some v =>
          if truthy v then "https://www.imdb.com/title/" ++ Json.toStr v ++ "/"
          else ""
      | none => ""
    year :=
      match jsGet (jsGet titleObj "releaseYear") "year" with
      | some v => Json.toStr v
      | none => ""
    type := jsOr (jsGet (jsGet titleObj "titleType") "text") (Json.str "")
    role := jsOr (jsGet (jsIndex (jsGet node "characters") 0) "name") (Json.str "") }

/-- `extractFilmographyFromHtml` of src/unnamed/part_000 (lines 107-141).
The guard at line 125, `!edges || !Array.isArray(edges)`, lets processing
continue exactly when the chain produced an array (arrays are always
truthy), and warns otherwise. -/
def extractFilmographyFromHtml (doc : Doc) : List Diag × List Credit :=
  match doc with
  | Doc.noBlock => ([Diag.errNoNextData], [])
  | Doc.invalidBlock => ([Diag.errParseFailed], [])
  | Doc.payload j =>
      match edgesChain j with
      | some (Json.arr xs) => ([], xs.map normalizeEdge)
      | _ => ([Diag.warnNoFilmography], [])

end Part000

namespace IndexJs

/-- One row of the pending-set query result (line 39): the TalentID key and
the IMDBLink column, which may be NULL. -/
structure SrcRow where
  TalentID : Int
  IMDBLink : Option String

/-- The external collaborators of one run of the sync driver, each
deterministic for the duration of a run: whether `sql.connect` resolves,
whether the pending-set query resolves, the contents of the source table,
the fetch outcome per IMDb id (`Except.error` = fetchImdbPage rejecting, on
a network failure or a non-2xx status), whether each individual INSERT
resolves, and whether `pool.close()` resolves. -/
structure Env where
  connectOk : Bool
  queryOk : Bool
  source : List SrcRow
  fetch : String → Except String Doc
  insertOk : Int → Credit → Bool
  closeOk : Bool

/-- The insert loop at lines 56-72: one INSERT per credit, in extraction
order; a rejected INSERT throws out of the loop (caught at the per-talent
boundary), keeping the rows already written. -/
def insertAll (env : Env) (tid : Int) : List Credit → List (Int × Credit)
  | [] => []
  | c :: cs => if env.insertOk tid c then (tid, c) :: insertAll env tid cs else []

/-- The per-row body at lines 41-77: resolve the id (skip via `continue`
when falsy), fetch, normalize, insert; any throw from fetch, normalize or
insert is caught at line 73 and only logged, so the row contributes the
rows inserted before the throw and processing continues. -/
def processRow (env : Env) (row : SrcRow) : List (Int × Credit) :=
  match extractImdbId row.IMDBLink with
  | none => []
  | some imdbId =>
      match env.fetch imdbId with
      | Except.error _ => []
      | Except.ok doc =>
          match extractFilmographyFromHtml doc with
          | Except.error _ => []
          | Except.ok pr => insertAll env row.TalentID pr.2

/-- The pending-set query at lines 31-37: source rows whose TalentID has no
row at all in the output table (anti-join). -/
def pendingRows (source : List SrcRow) (output : List (Int × Credit)) :
    List SrcRow :=
  source.filter fun r => ! output.any fun o => o.1 == r.TalentID

/-- `processAllExistingImdbLinks` (lines 26-84) as a transformer of the
output table: every throw inside the outer try - a failed connect or a
failed pending-set query included - is caught at line 79 and only logged,
after which the finally block runs; the only throw that can escape the
function is `pool.close()` rejecting inside finally (there is no pool to
close when connect itself failed).  Returns the final output table and
whether a throw escaped. -/
def processAllExistingImdbLinks (env : Env) (output : List (Int × Credit)) :
    List (Int × Credit) × Bool :=
  if env.connectOk then
    let output2 :=
      if env.queryOk then
        output ++ (pendingRows env.source output).flatMap (processRow env)
      else output
    (output2, ! env.closeOk)
  else (output, false)

/-- The IIFE at lines 154-163: exit status 0 when
`processAllExistingImdbLinks` resolves, 1 when it rejects. -/
def mainExitCode (env : Env) (output : List (Int × Credit)) : Nat :=
  if (processAllExistingImdbLinks env output).2 then 1 else 0

end IndexJs

/-- Modelled from the claim C5's wording, for comparison with the code's
`extractImdbId`: the string contains the pattern "/name/<TOKEN>/" - with
its terminating slash - where TOKEN is a letter prefix followed by
digits. -/
def ClaimNamePattern (s : String) : Prop :=
  ∃ pre letters ds post,
    s.data = pre ++ ['/', 'n', 'a', 'm', 'e', '/'] ++ letters ++ ds ++ '/' :: post ∧
      letters ≠ [] ∧ letters.all Char.isAlpha = true ∧
      ds ≠ [] ∧ ds.all Char.isDigit = true

/-- What the code's regex actually requires of the string: the literal
"/name/nm" followed by at least one digit, anywhere in the string; no
trailing slash is needed. -/
def ContainsNm (s : String) : Prop :=
  ∃ pre d rest, s.data = pre ++ nmNeedle ++ d :: rest ∧ d.isDigit = true

/-! Concrete documents, edges and environments used to instantiate the
claims. -/

/-- A credit group holding the given edges: `{credits: {edges: [...]}}`. -/
def groupOf (edges : List Json) : Json :=
  Json.obj [("credits", Json.obj [("edges", Json.arr edges)])]

/-- A decoded payload with only a released credit container. -/
def payloadRel (rel : List Json) : Json :=
  Json.obj [("props", Json.obj [("pageProps", Json.obj [("mainColumnData",
    Json.obj [("releasedPrimaryCredits", Json.arr rel)])])])]

/-- A decoded payload with both a released and an unreleased credit
container. -/
def payloadBoth (rel unrel : List Json) : Json :=
  Json.obj [("props", Json.obj [("pageProps", Json.obj [("mainColumnData",
    Json.obj [("releasedPrimaryCredits", Json.arr rel),
              ("unreleasedPrimaryCredits", Json.arr unrel)])])])]

/-- An edge whose node carries only `title.titleText.text = "Show X"`. -/
def edgeShowX : Json :=
  Json.obj [("node", Json.obj [("title", Json.obj [("titleText",
    Json.obj [("text", Json.str "Show X")])])])]

/-- The record the claims expect `edgeShowX` to normalize to. -/
def creditShowX : IndexJs.Credit :=
  { title := Json.str "Show X", titleUrl := "", fromYear := "", toYear := none
    noOfEpisodes := Json.num 0, type := Json.str "", role := Json.str ""
    currentProductionStage := Json.str "" }

/-- A second trivial edge, carrying only `title.titleText.text = "Show Y"`. -/
def edgeShowY : Json :=
  Json.obj [("node", Json.obj [("title", Json.obj [("titleText",
    Json.obj [("text", Json.str "Show Y")])])])]

/-- The normalization of `edgeShowY` under src/index.js. -/
def creditShowY : IndexJs.Credit :=
  { title := Json.str "Show Y", titleUrl := "", fromYear := "", toYear := none
    noOfEpisodes := Json.num 0, type := Json.str "", role := Json.str ""
    currentProductionStage := Json.str "" }

/-- An edge whose `episodeCredits.yearRange` exists but has no `year`
field. -/
def edgeRangeNoYear : Json :=
  Json.obj [("node", Json.obj [("episodeCredits",
    Json.obj [("yearRange", Json.obj [])])])]

/-- An edge whose `title.releaseYear` exists but has no `year` field. -/
def edgeReleaseNoYear : Json :=
  Json.obj [("node", Json.obj [("title", Json.obj [("releaseYear",
    Json.obj [])])])]

/-- An edge with an empty `episodeCredits.yearRange` and a perfectly good
`title.releaseYear.year = 2020` to fall back to. -/
def edgeRangeBlocksFallback : Json :=
  Json.obj [("node", Json.obj
    [("episodeCredits", Json.obj [("yearRange", Json.obj [])]),
     ("title", Json.obj [("releaseYear", Json.obj [("year", Json.num 2020)])])])]

/-- An edge with no `episodeCredits` at all and
`title.releaseYear.year = 2020`. -/
def edgeOnlyRelease : Json :=
  Json.obj [("node", Json.obj [("title", Json.obj [("releaseYear",
    Json.obj [("year", Json.num 2020)])])])]

/-- The normalization of `edgeOnlyRelease` under src/index.js: the release
year lands in `fromYear`. -/
def creditOnlyRelease : IndexJs.Credit :=
  { title := Json.str "", titleUrl := "", fromYear := "2020", toYear := none
    noOfEpisodes := Json.num 0, type := Json.str "", role := Json.str ""
    currentProductionStage := Json.str "" }

/-- A full edge with an episode year range `2001-2003`, 20 episodes. -/
def edgeEpisodic : Json :=
  Json.obj [("node", Json.obj
    [("episodeCredits", Json.obj
      [("yearRange", Json.obj [("year", Json.num 2001), ("endYear", Json.num 2003)]),
       ("total", Json.num 20)]),
     ("title", Json.obj [("titleText", Json.obj [("text", Json.str "Serial Z")])])])]

/-- A released-container-only payload around `edgeShowX`. -/
def payloadW1 : Json := payloadRel [groupOf [edgeShowX]]

/-- The same released container as `payloadW1` plus an unreleased container
around `edgeShowY`: the two payloads agree on
`releasedPrimaryCredits?.[0]?.credits?.edges`. -/
def payloadW2 : Json := payloadBoth [groupOf [edgeShowX]] [groupOf [edgeShowY]]

/-- An environment whose storage connection cannot be established. -/
def envConnectFail : IndexJs.Env :=
  { connectOk := false, queryOk := true, source := []
    fetch := fun _ => Except.error "connection is closed"
    insertOk := fun _ _ => true, closeOk := true }

/-- An environment whose pending-set query rejects. -/
def envQueryFail : IndexJs.Env :=
  { connectOk := true, queryOk := false, source := []
    fetch := fun _ => Except.error "connection is closed"
    insertOk := fun _ _ => true, closeOk := true }

/-- Source row of entity A (its fetch will fail). -/
def rowA : IndexJs.SrcRow :=
  { TalentID := 1, IMDBLink := some "https://www.imdb.com/name/nm0000001/" }

/-- Source row of entity B (its fetch will succeed). -/
def rowB : IndexJs.SrcRow :=
  { TalentID := 2, IMDBLink := some "https://www.imdb.com/name/nm0000002/" }

/-- The page fetched for entity B: one released edge. -/
def docB : Doc := Doc.payload payloadW1

/-- A two-entity environment: entity A's fetch rejects with a non-2xx
status, entity B's resolves to `docB`; every insert and the close
succeed. -/
def envAB : IndexJs.Env :=
  { connectOk := true, queryOk := true, source := [rowA, rowB]
    fetch := fun id =>
      if id = "nm0000002" then Except.ok docB
      else Except.error "Failed to fetch IMDb page: 500 Internal Server Error"
    insertOk := fun _ _ => true, closeOk := true }

/-! Theorems. -/

/-- Claim C1: the claim states that the normalizer never raises for a
missing individual field, in particular for an edge whose
`episodeCredits.yearRange` exists without a `year` field or whose
`title.releaseYear` exists without a `year` field.  The code contradicts
this: at line 142 of src/index.js the final `.toString()` of
`node?.episodeCredits?.yearRange?.year.toString()` and of
`node?.title?.releaseYear?.year.toString()` is a plain (non-optional)
member access, so precisely those two edges make
`extractFilmographyFromHtml` raise a TypeError (the older variant at
src/unnamed/part_000 line 135 writes the safe `?.toString()`). -/
theorem claim_C1_missing_year_throws :
    IndexJs.extractFilmographyFromHtml (Doc.payload (payloadRel [groupOf [edgeRangeNoYear]])) =
      Except.error "TypeError: cannot read toString of undefined" ∧
    IndexJs.extractFilmographyFromHtml (Doc.payload (payloadRel [groupOf [edgeReleaseNoYear]])) =
      Except.error "TypeError: cannot read toString of undefined" :=
  ⟨rfl, rfl⟩

/-- Claim C2: the claim states the process exits non-zero exactly when the
storage connection cannot be established or the pending-set query fails.
The code contradicts this: both failures are caught inside
`processAllExistingImdbLinks` at line 79 of src/index.js and only logged,
the function returns normally, and the IIFE exits with status 0 - its
`process.exit(1)` branch is reachable only through `pool.close()` rejecting
in the finally block. -/
theorem claim_C2_fatal_setup_exits_zero :
    IndexJs.processAllExistingImdbLinks envConnectFail [] = ([], false) ∧
    IndexJs.mainExitCode envConnectFail [] = 0 ∧
    IndexJs.mainExitCode envQueryFail [] = 0 :=
  ⟨rfl, rfl, rfl⟩

/-- Claim C6: for a document in which the structured-data block is absent,
or present but not decodable as valid JSON, `extractFilmographyFromHtml`
returns the empty sequence together with the corresponding diagnostic
(console.error at lines 114 and 121 of src/index.js) and does not throw. -/
theorem claim_C6_malformed_document :
    IndexJs.extractFilmographyFromHtml Doc.noBlock =
      Except.ok ([Diag.errNoNextData], []) ∧
    IndexJs.extractFilmographyFromHtml Doc.invalidBlock =
      Except.ok ([Diag.errParseFailed], []) :=
  ⟨rfl, rfl⟩

/-- Claim C7: an edge whose node contains only
`title.titleText.text = "Show X"` normalizes to exactly the record with
title "Show X", empty titleUrl, empty startYear (field `fromYear`), absent
endYear (field `toYear` = none), episodeCount 0 (field `noOfEpisodes`),
empty creditType (field `type`), empty role and empty productionStage
(field `currentProductionStage`). -/
theorem claim_C7_field_defaults :
    IndexJs.normalizeEdge edgeShowX = Except.ok creditShowX :=
  rfl

/-- Claim C8: the claim states that for every edge `startYear` is the
episode-range year if present, else the direct release-year field, else the
empty string.  The code contradicts the fallback: for an edge whose
`episodeCredits.yearRange` exists without a `year` field and whose
`title.releaseYear.year` is 2020, line 142 of src/index.js raises a
TypeError instead of producing "2020" (first conjunct); the rules do hold
when the year fields that are present are well-formed, e.g. with
`episodeCredits` absent the release year lands in `fromYear` as "2020"
with `toYear` = none (second conjunct), and an episode range 2001-2003
yields fromYear "2001" and toYear some "2003" (third conjunct). -/
theorem claim_C8_year_rules :
    IndexJs.normalizeEdge edgeRangeBlocksFallback =
      Except.error "TypeError: cannot read toString of undefined" ∧
    IndexJs.normalizeEdge edgeOnlyRelease = Except.ok creditOnlyRelease ∧
    IndexJs.normalizeEdge edgeEpisodic = Except.ok
      { title := Json.str "Serial Z", titleUrl := "", fromYear := "2001",
        toYear := some "2003", noOfEpisodes := Json.num 20, type := Json.str "",
        role := Json.str "", currentProductionStage := Json.str "" } :=
  ⟨rfl, rfl, rfl⟩

/-- Claim C10: the older normalizer variant (src/unnamed/part_000) depends
only on `releasedPrimaryCredits?.[0]?.credits?.edges`: two decodable
payloads that agree on that chain produce identical outputs; and - unlike
it - the newer variant (src/index.js) distinguishes two such payloads, for
instance one with and one without an unreleased container. -/
theorem claim_C10_first_released_group_only (j1 j2 : Json)
    (h : Part000.edgesChain j1 = Part000.edgesChain j2) :
    Part000.extractFilmographyFromHtml (Doc.payload j1) =
      Part000.extractFilmographyFromHtml (Doc.payload j2) ∧
    ∃ k1 k2 : Json, Part000.edgesChain k1 = Part000.edgesChain k2 ∧
      IndexJs.extractFilmographyFromHtml (Doc.payload k1) ≠
        IndexJs.extractFilmographyFromHtml (Doc.payload k2) := by
  refine ⟨?_, payloadW1, payloadW2, rfl, ?_⟩
  · simp only [Part000.extractFilmographyFromHtml, h]
  · intro hEq
    have e1 : IndexJs.extractFilmographyFromHtml (Doc.payload payloadW1) =
        Except.ok ([], [creditShowX]) := rfl
    have e2 : IndexJs.extractFilmographyFromHtml (Doc.payload payloadW2) =
        Except.ok ([], [creditShowX, creditShowY]) := rfl
    rw [e1, e2] at hEq
    simp at hEq

/-- Witness for claim C10 at the concrete payload pair `payloadW1`,
`payloadW2`, whose released chains agree by computation. -/
theorem claim_C10_first_released_group_only_witness :
    Part000.extractFilmographyFromHtml (Doc.payload payloadW1) =
      Part000.extractFilmographyFromHtml (Doc.payload payloadW2) ∧
    ∃ k1 k2 : Json, Part000.edgesChain k1 = Part000.edgesChain k2 ∧
      IndexJs.extractFilmographyFromHtml (Doc.payload k1) ≠
        IndexJs.extractFilmographyFromHtml (Doc.payload k2) :=
  claim_C10_first_released_group_only payloadW1 payloadW2 rfl

/-- Array.prototype.flatMap distributes over concatenation. -/
theorem flatMapJs_append (f : Json → Json) (a b : List Json) :
    flatMapJs f (a ++ b) = flatMapJs f a ++ flatMapJs f b := by
  induction a with
  | nil => rfl
  | cons x xs ih => simp [flatMapJs, ih]

/-- When the edge loop completes without raising, it emits exactly one
credit per edge. -/
theorem normalizeEdges_ok_length :
    ∀ {l : List Json} {cs : List IndexJs.Credit},
      IndexJs.normalizeEdges l = Except.ok cs → cs.length = l.length := by
  intro l
  induction l with
  | nil =>
      intro cs h
      simp only [IndexJs.normalizeEdges] at h
      simp at h
      simp [← h]
  | cons e es ih =>
      intro cs h
      simp only [IndexJs.normalizeEdges] at h
      cases h1 : IndexJs.normalizeEdge e with
      | error m => rw [h1] at h; simp at h
      | ok c =>
          rw [h1] at h
          cases h2 : IndexJs.normalizeEdges es with
          | error m => rw [h2] at h; simp at h
          | ok cs2 =>
              rw [h2] at h
              simp at h
              have hlen := ih h2
              simp [← h, hlen]

/-- Claim C3: for a decoded payload holding both a released and an
unreleased credit container, the output of `extractFilmographyFromHtml` is
the edge list of the released containers followed by that of the unreleased
containers, normalized in source order with no re-sorting and no filtering,
so its length is the total number of edges across both; and no diagnostic
is emitted. -/
theorem claim_C3_concat_order (j : Json) (rel unrel : List Json)
    (ds : List Diag) (cs : List IndexJs.Credit)
    (hr : jsGet (IndexJs.mainColumnData j) "releasedPrimaryCredits" =
      some (Json.arr rel))
    (hu : jsGet (IndexJs.mainColumnData j) "unreleasedPrimaryCredits" =
      some (Json.arr unrel))
    (hok : IndexJs.extractFilmographyFromHtml (Doc.payload j) =
      Except.ok (ds, cs)) :
    IndexJs.normalizeEdges
        (flatMapJs IndexJs.creditEdges rel ++ flatMapJs IndexJs.creditEdges unrel) =
      Except.ok cs ∧
    cs.length =
      (flatMapJs IndexJs.creditEdges rel).length +
        (flatMapJs IndexJs.creditEdges unrel).length ∧
    ds = [] := by
  simp only [IndexJs.extractFilmographyFromHtml, hr, hu, jsOr, truthy, if_true,
    jsIterate] at hok
  cases hN : IndexJs.normalizeEdges (flatMapJs IndexJs.creditEdges (rel ++ unrel)) with
  | error m => rw [hN] at hok; simp at hok
  | ok cs2 =>
      rw [hN] at hok
      simp at hok
      obtain ⟨hds, hcs⟩ := hok
      have hlen := normalizeEdges_ok_length hN
      rw [flatMapJs_append] at hN hlen
      refine ⟨by rw [hN, hcs], ?_, by rw [← hds]⟩
      rw [← hcs, hlen, List.length_append]

/-- Witness for claim C3 at `payloadW2` (one released edge `edgeShowX`, one
unreleased edge `edgeShowY`): the hypotheses hold by computation and the
output is the two credits, released first. -/
theorem claim_C3_concat_order_witness :
    IndexJs.extractFilmographyFromHtml (Doc.payload payloadW2) =
      Except.ok ([], [creditShowX, creditShowY]) ∧
    (IndexJs.normalizeEdges
        (flatMapJs IndexJs.creditEdges [groupOf [edgeShowX]] ++
          flatMapJs IndexJs.creditEdges [groupOf [edgeShowY]]) =
      Except.ok [creditShowX, creditShowY] ∧
    [creditShowX, creditShowY].length =
      (flatMapJs IndexJs.creditEdges [groupOf [edgeShowX]]).length +
        (flatMapJs IndexJs.creditEdges [groupOf [edgeShowY]]).length ∧
    ([] : List Diag) = []) :=
  ⟨rfl, claim_C3_concat_order payloadW2 [groupOf [edgeShowX]] [groupOf [edgeShowY]]
    [] [creditShowX, creditShowY] rfl rfl rfl⟩

/-- When every INSERT of a talent's credit list resolves, the insert loop
writes one row per credit, in extraction order. -/
theorem insertAll_map_of_ok (env : IndexJs.Env) (tid : Int) :
    ∀ (cs : List IndexJs.Credit), (∀ c ∈ cs, env.insertOk tid c = true) →
      IndexJs.insertAll env tid cs = cs.map fun c => (tid, c)
  | [], _ => rfl
  | c :: cs, h => by
      have hc : env.insertOk tid c = true := h c (by simp)
      simp [IndexJs.insertAll, hc,
        insertAll_map_of_ok env tid cs fun d hd => h d (by simp [hd])]

/-- Against an empty output table, the pending set is the whole source
table. -/
theorem pendingRows_empty_output (source : List IndexJs.SrcRow) :
    IndexJs.pendingRows source [] = source := by
  simp [IndexJs.pendingRows]

/-- Claim C4: per-entity failure isolation.  In a two-entity batch where
entity A's fetch rejects and entity B's fetch, normalize and inserts all
resolve, the run writes exactly B's credits (tagged with B's TalentID, in
extraction order), no throw escapes, and the process exits with status
0. -/
theorem claim_C4_partial_failure_isolation (env : IndexJs.Env)
    (rA rB : IndexJs.SrcRow) (idA idB : String) (eA : String) (docOfB : Doc)
    (ds : List Diag) (cs : List IndexJs.Credit)
    (hconn : env.connectOk = true) (hq : env.queryOk = true)
    (hclose : env.closeOk = true) (hsrc : env.source = [rA, rB])
    (hA1 : extractImdbId rA.IMDBLink = some idA)
    (hA2 : env.fetch idA = Except.error eA)
    (hB1 : extractImdbId rB.IMDBLink = some idB)
    (hB2 : env.fetch idB = Except.ok docOfB)
    (hB3 : IndexJs.extractFilmographyFromHtml docOfB = Except.ok (ds, cs))
    (hins : ∀ c ∈ cs, env.insertOk rB.TalentID c = true) :
    IndexJs.processAllExistingImdbLinks env [] =
      (cs.map fun c => (rB.TalentID, c), false) ∧
    IndexJs.mainExitCode env [] = 0 := by
  have hpend : IndexJs.pendingRows env.source [] = [rA, rB] := by
    rw [hsrc, pendingRows_empty_output]
  have hrowA : IndexJs.processRow env rA = [] := by
    simp [IndexJs.processRow, hA1, hA2]
  have hrowB : IndexJs.processRow env rB = cs.map fun c => (rB.TalentID, c) := by
    simp [IndexJs.processRow, hB1, hB2, hB3,
      insertAll_map_of_ok env rB.TalentID cs hins]
  have hmain : IndexJs.processAllExistingImdbLinks env [] =
      (cs.map fun c => (rB.TalentID, c), false) := by
    simp [IndexJs.processAllExistingImdbLinks, hconn, hq, hclose, hpend,
      hrowA, hrowB]
  exact ⟨hmain, by simp [IndexJs.mainExitCode, hmain]⟩

/-- Witness for claim C4 at the concrete environment `envAB`: entity A's
fetch rejects with a 500, entity B resolves to one credit, which is
persisted, and the exit status is 0. -/
theorem claim_C4_partial_failure_isolation_witness :
    envAB.fetch "nm0000001" =
      Except.error "Failed to fetch IMDb page: 500 Internal Server Error" ∧
    (IndexJs.processAllExistingImdbLinks envAB [] = ([(2, creditShowX)], false) ∧
     IndexJs.mainExitCode envAB [] = 0) :=
  ⟨rfl, claim_C4_partial_failure_isolation envAB rowA rowB "nm0000001" "nm0000002"
    "Failed to fetch IMDb page: 500 Internal Server Error" docB [] [creditShowX]
    rfl rfl rfl rfl rfl rfl rfl rfl rfl (fun _ _ => rfl)⟩

/-- Every row the insert loop writes carries the talent key it was given. -/
theorem insertAll_mem_fst (env : IndexJs.Env) (tid : Int) :
    ∀ (cs : List IndexJs.Credit) (o : Int × IndexJs.Credit),
      o ∈ IndexJs.insertAll env tid cs → o.1 = tid
  | [], o, h => by simp [IndexJs.insertAll] at h
  | c :: cs, o, h => by
      simp only [IndexJs.insertAll] at h
      by_cases hc : env.insertOk tid c = true
      · rw [if_pos hc] at h
        rcases List.mem_cons.mp h with h1 | h2
        · rw [h1]
        · exact insertAll_mem_fst env tid cs o h2
      · rw [if_neg hc] at h
        simp at h

/-- Every output row a work item produces carries that item's TalentID. -/
theorem processRow_mem_fst (env : IndexJs.Env) (r : IndexJs.SrcRow)
    (o : Int × IndexJs.Credit) (h : o ∈ IndexJs.processRow env r) :
    o.1 = r.TalentID := by
  unfold IndexJs.processRow at h
  cases h1 : extractImdbId r.IMDBLink with
  | none => rw [h1] at h; simp at h
  | some imdbId =>
      rw [h1] at h
      dsimp only at h
      cases h2 : env.fetch imdbId with
      | error e => rw [h2] at h; simp at h
      | ok doc =>
          rw [h2] at h
          dsimp only at h
          cases h3 : IndexJs.extractFilmographyFromHtml doc with
          | error e => rw [h3] at h; simp at h
          | ok pr =>
              rw [h3] at h
              dsimp only at h
              exact insertAll_mem_fst env r.TalentID pr.2 o h

/-- Membership in the pending set: a source row none of whose key's rows
exist in the output table. -/
theorem mem_pendingRows {source : List IndexJs.SrcRow}
    {output : List (Int × IndexJs.Credit)} {r : IndexJs.SrcRow} :
    r ∈ IndexJs.pendingRows source output ↔
      r ∈ source ∧ ∀ o ∈ output, ¬ o.1 = r.TalentID := by
  simp [IndexJs.pendingRows, List.mem_filter]

/-- A flatMap over elements that all produce nothing produces nothing. -/
theorem flatMap_eq_nil_of {α β : Type} (f : α → List β) :
    ∀ (l : List α), (∀ x ∈ l, f x = []) → l.flatMap f = []
  | [], _ => rfl
  | x :: xs, h => by
      simp [List.flatMap_cons, h x (by simp),
        flatMap_eq_nil_of f xs fun y hy => h y (by simp [hy])]

/-- After one completed run, every entity still pending is one that
produced no row in that run, and - the collaborators being unchanged - it
produces no row again: a second pass over the new pending set writes
nothing. -/
theorem secondRun_adds_nothing (env : IndexJs.Env)
    (output : List (Int × IndexJs.Credit)) :
    (IndexJs.pendingRows env.source
        (output ++ (IndexJs.pendingRows env.source output).flatMap
          (IndexJs.processRow env))).flatMap (IndexJs.processRow env) = [] := by
  apply flatMap_eq_nil_of
  intro r hr
  rw [mem_pendingRows] at hr
  obtain ⟨hrsrc, hno⟩ := hr
  have hr0 : r ∈ IndexJs.pendingRows env.source output :=
    mem_pendingRows.mpr ⟨hrsrc, fun o ho => hno o (List.mem_append_left _ ho)⟩
  cases hpr : IndexJs.processRow env r with
  | nil => rfl
  | cons o os =>
      exfalso
      have homem : o ∈ IndexJs.processRow env r := by rw [hpr]; simp
      have h2 : o ∈ (IndexJs.pendingRows env.source output).flatMap
          (IndexJs.processRow env) :=
        List.mem_flatMap.mpr ⟨r, hr0, homem⟩
      exact hno o (List.mem_append_right _ h2) (processRow_mem_fst env r o homem)

/-- Claim C9: idempotence of the sync driver.  Running
`processAllExistingImdbLinks` a second time, against the same source table,
the same documents and the output table left by the first run, adds no
output row: every entity that gained a row in run one is excluded from run
two's pending set by the anti-join, and every entity still pending yields
the same row-less outcome again. -/
theorem claim_C9_idempotent (env : IndexJs.Env)
    (output : List (Int × IndexJs.Credit)) :
    (IndexJs.processAllExistingImdbLinks env
        (IndexJs.processAllExistingImdbLinks env output).1).1 =
      (IndexJs.processAllExistingImdbLinks env output).1 := by
  by_cases hc : env.connectOk
  · by_cases hq : env.queryOk
    · have h2 := secondRun_adds_nothing env output
      simp [IndexJs.processAllExistingImdbLinks, hc, hq, h2]
    · simp [IndexJs.processAllExistingImdbLinks, hc, hq]
  · simp [IndexJs.processAllExistingImdbLinks, hc]

/-- Stripping a needle succeeds exactly on lists that start with it. -/
theorem dropNeedle_eq_some :
    ∀ (ns cs rest : List Char), dropNeedle ns cs = some rest ↔ cs = ns ++ rest := by
  intro ns
  induction ns with
  | nil =>
      intro cs rest
      simp [dropNeedle]
  | cons n ns ih =>
      intro cs rest
      cases cs with
      | nil => simp [dropNeedle]
      | cons c cs2 =>
          simp only [dropNeedle]
          by_cases hc : c = n
          · subst hc
            simp [ih]
          · simp [hc]

/-- An anchored match of the regex succeeds exactly when the list starts
with "/name/nm" followed by a digit. -/
theorem nmTokenAt_isSome_iff (cs : List Char) :
    (nmTokenAt cs).isSome = true ↔
      ∃ d rest, cs = nmNeedle ++ d :: rest ∧ d.isDigit = true := by
  unfold nmTokenAt
  cases hd : dropNeedle nmNeedle cs with
  | none =>
      simp only [Option.isSome_none, Bool.false_eq_true, false_iff]
      rintro ⟨d, rest, hcs, -⟩
      have h2 := (dropNeedle_eq_some nmNeedle cs (d :: rest)).mpr hcs
      rw [hd] at h2
      exact Option.noConfusion h2
  | some rest0 =>
      have hcs : cs = nmNeedle ++ rest0 := (dropNeedle_eq_some _ _ _).mp hd
      subst hcs
      cases rest0 with
      | nil =>
          simp only [Option.isSome_none, Bool.false_eq_true, false_iff]
          rintro ⟨d, rest, habs, -⟩
          have h3 : ([] : List Char) = d :: rest := List.append_cancel_left habs
          exact List.noConfusion h3
      | cons d2 rest2 =>
          by_cases hdig : d2.isDigit = true
          · simp only [hdig, if_true, Option.isSome_some, true_iff]
            exact ⟨d2, rest2, rfl, hdig⟩
          · simp only [Bool.not_eq_true] at hdig
            simp only [hdig, Bool.false_eq_true, if_false, Option.isSome_none,
              false_iff]
            rintro ⟨d, rest, habs, hdd⟩
            have h3 : d2 :: rest2 = d :: rest := List.append_cancel_left habs
            rw [(List.cons.injEq _ _ _ _).mp h3 |>.1] at hdig
            rw [hdd] at hdig
            exact Bool.noConfusion hdig

/-- The leftmost-first search finds some match exactly when the string
contains "/name/nm" followed by a digit somewhere. -/
theorem findNmMatch_isSome_iff :
    ∀ (cs : List Char), (findNmMatch cs).isSome = true ↔
      ∃ pre d rest, cs = pre ++ nmNeedle ++ d :: rest ∧ d.isDigit = true := by
  intro cs
  induction cs with
  | nil =>
      simp only [findNmMatch, Option.isSome_none, Bool.false_eq_true, false_iff]
      rintro ⟨pre, d, rest, habs, -⟩
      cases pre <;> exact List.noConfusion habs
  | cons c cs2 ih =>
      simp only [findNmMatch]
      cases ht : nmTokenAt (c :: cs2) with
      | some tok =>
          simp only [Option.isSome_some, true_iff]
          have hs : (nmTokenAt (c :: cs2)).isSome = true := by rw [ht]; rfl
          obtain ⟨d, rest, hcs, hdig⟩ := (nmTokenAt_isSome_iff _).mp hs
          exact ⟨[], d, rest, by simpa using hcs, hdig⟩
      | none =>
          simp only
          rw [ih]
          constructor
          · rintro ⟨pre, d, rest, hcs, hdig⟩
            exact ⟨c :: pre, d, rest, by rw [hcs]; rfl, hdig⟩
          · rintro ⟨pre, d, rest, hcs, hdig⟩
            cases pre with
            | nil =>
                exfalso
                have hs : (nmTokenAt (c :: cs2)).isSome = true :=
                  (nmTokenAt_isSome_iff _).mpr ⟨d, rest, by simpa using hcs, hdig⟩
                rw [ht] at hs
                exact Bool.noConfusion hs
            | cons p pre2 =>
                have h5 : cs2 = pre2 ++ nmNeedle ++ d :: rest := by
                  have h6 := (List.cons.injEq _ _ _ _).mp (by simpa using hcs)
                  rw [h6.2, List.append_assoc]
                exact ⟨pre2, d, rest, h5, hdig⟩

/-- Claim C5, counterexample: "/name/ab123/" contains the pattern
"/name/<TOKEN>/" with TOKEN the letter prefix "ab" followed by digits
"123", yet `extractImdbId` returns null - the regex at line 105 of
src/index.js only accepts the fixed prefix "nm". -/
theorem claim_C5_letter_prefix_cex :
    ClaimNamePattern "/name/ab123/" ∧
      extractImdbId (some "/name/ab123/") = none := by
  refine ⟨⟨[], ['a', 'b'], ['1', '2', '3'], [], by decide, by decide, by decide,
    by decide, by decide⟩, rfl⟩

/-- Claim C5 as amended: `extractImdbId` is a total function (so it cannot
throw, on null and the empty string included), and it returns an identifier
exactly when its argument is a string containing the literal "/name/nm"
followed by at least one digit - the token prefix is fixed to "nm", not an
arbitrary letter prefix, and no trailing slash is required. -/
theorem claim_C5_nm_prefix (u : Option String) :
    (extractImdbId u).isSome = true ↔ ∃ s, u = some s ∧ ContainsNm s := by
  cases u with
  | none => simp [extractImdbId]
  | some s =>
      simp only [extractImdbId]
      by_cases hs : s = ""
      · subst hs
        constructor
        · intro h
          simp at h
        · rintro ⟨s2, hs2, hC⟩
          exfalso
          have hse : s2 = "" := by injection hs2 with h; rw [h]
          subst hse
          obtain ⟨pre, d, rest, habs, -⟩ := hC
          have hnil : ("".data : List Char) = [] := rfl
          rw [hnil] at habs
          cases pre <;> simp [nmNeedle] at habs
      · rw [if_neg hs, Option.isSome_map', findNmMatch_isSome_iff]
        constructor
        · rintro ⟨pre, d, rest, h1, h2⟩
          exact ⟨s, rfl, pre, d, rest, h1, h2⟩
        · rintro ⟨s2, hs2, pre, d, rest, h1, h2⟩
          have hse : s = s2 := by injection hs2
          rw [hse]
          exact ⟨pre, d, rest, h1, h2⟩
